import Mathlib

/-!
Verification of the Job-Application-Tracker client, a single React/Firebase
component in src/src/JobTracker.jsx.  The definitions below are a shallow
embedding of that file: pure helpers become Lean functions, the Firestore and
auth side effects become explicit values (lists of issued store calls, option
types for absent handles), and the JavaScript object/date quirks that the
claims depend on are modelled explicitly where the code exercises them.
-/

open List

/-- A calendar date as produced by parsing an ISO YYYY-MM-DD string.  JS
represents a parsed date as a millisecond count; only the calendar-date part
matters anywhere in this program, so we carry the year, month and day. -/
structure JsDate where
  y : Nat
  m : Nat
  d : Nat
deriving DecidableEq

/-- Gregorian leap-year test, matching the proleptic Gregorian calendar used
by the ECMAScript Date type. -/
def isLeapYear (y : Nat) : Bool :=
  (y % 4 = 0 && y % 100 != 0) || y % 400 = 0

/-- Number of days in a given month of a given year. -/
def daysInMonth (y m : Nat) : Nat :=
  if m = 2 then (if isLeapYear y then 29 else 28)
  else if m = 4 || m = 6 || m = 9 || m = 11 then 30
  else 31

/-- Value of a decimal digit character, if it is one. -/
def digitVal (c : Char) : Option Nat :=
  if c.isDigit then some (c.toNat - 48) else none

/-- Parse of a date-only ISO string by the JS Date constructor
(new Date(s) at JobTracker.jsx:109/131 and the date form input at line 246).
A string parses exactly when it has the shape YYYY-MM-DD with in-range month
and day (V8 rejects out-of-range days such as 2024-02-31); everything else
yields an Invalid Date.  This models the date-only fragment that the program
can actually store and compare. -/
def jsParseDate (s : String) : Option JsDate :=
  match s.toList with
  | [y1, y2, y3, y4, c1, m1, m2, c2, d1, d2] =>
    if c1 = '-' && c2 = '-' then
      match digitVal y1, digitVal y2, digitVal y3, digitVal y4,
            digitVal m1, digitVal m2, digitVal d1, digitVal d2 with
      | some a, some b, some c, some d, some e, some f, some g, some h =>
        let y := ((a * 10 + b) * 10 + c) * 10 + d
        let m := e * 10 + f
        let dd := g * 10 + h
        if 1 ≤ m && m ≤ 12 && 1 ≤ dd && dd ≤ daysInMonth y m then
          some ⟨y, m, dd⟩
        else none
      | _, _, _, _, _, _, _, _ => none
    else none
  | _ => none

/-- Numeric sort key of a parsed date.  The JS comparator subtracts the two
time values (milliseconds since the epoch); on valid calendar dates the
encoding y * 10000 + m * 100 + d is strictly monotone in exactly the same
order, so differences have the same sign and the comparator behaves
identically. -/
def JsDate.encode (t : JsDate) : Int :=
  (t.y * 10000 + t.m * 100 + t.d : Nat)

/-- Two-digit zero-padded decimal rendering. -/
def pad2 (n : Nat) : String :=
  if n < 10 then "0" ++ toString n else toString n

/-- Four-digit zero-padded decimal rendering. -/
def pad4 (n : Nat) : String :=
  if n < 10 then "000" ++ toString n
  else if n < 100 then "00" ++ toString n
  else if n < 1000 then "0" ++ toString n
  else toString n

/-- ISO YYYY-MM-DD rendering, as produced by
toDate().toISOString().substring(0, 10) at JobTracker.jsx:106 and by the
initial form state at line 41. -/
def JsDate.toIso (t : JsDate) : String :=
  pad4 t.y ++ "-" ++ pad2 t.m ++ "-" ++ pad2 t.d

/-- A Firestore field value, restricted to the shapes this program stores and
reads: strings, timestamps, and the undefined value a missing field spreads
into a JS object.  A Firestore Timestamp is modelled by the UTC calendar date
that toDate().toISOString().substring(0, 10) extracts from it; the program
never looks at a timestamp in any other way. -/
inductive FsValue where
  | str (s : String)
  | ts (t : JsDate)
  | undef
deriving DecidableEq

/-- A JS object as the program builds them: a list of key/value insertions in
evaluation order.  Object spread appends the spread entries, and a later
entry for the same key overrides an earlier one. -/
abbrev FsObj := List (String × FsValue)

/-- Property read on such an object: the last insertion for the key wins,
matching JS assignment/spread semantics. -/
def jsLookup (o : FsObj) (k : String) : Option FsValue :=
  o.foldl (fun acc p => if p.1 = k then some p.2 else acc) none

/-- The five status options with their display classes (JobTracker.jsx:13-19). -/
structure StatusOption where
  value : String
  color : String
deriving DecidableEq

def STATUS_OPTIONS : List StatusOption :=
  [⟨"Applied", "bg-blue-100 text-blue-800"⟩,
   ⟨"Interviewing", "bg-purple-100 text-purple-800"⟩,
   ⟨"Offer", "bg-green-100 text-green-800"⟩,
   ⟨"Rejected", "bg-red-100 text-red-800"⟩,
   ⟨"Wishlist", "bg-yellow-100 text-yellow-800"⟩]

/-- The enumeration of allowed status strings. -/
def statusValues : List String := STATUS_OPTIONS.map (·.value)

/-- The fallback display class in getStatusColor (JobTracker.jsx:23). -/
def neutralStyle : String := "bg-gray-100 text-gray-800"

/-- Every display class the helper can return. -/
def validStyles : List String := STATUS_OPTIONS.map (·.color) ++ [neutralStyle]

/-- The JS expression x || d for a string-or-undefined x: undefined and the
empty string are falsy and select the default. -/
def jsOrDefault (v : Option String) (d : String) : String :=
  match v with
  | some c => if c = "" then d else c
  | none => d

/-- getStatusColor (JobTracker.jsx:22-24).  The argument is an Option so that
a null/undefined status is representable; find uses strict equality, so such
a status matches no option and falls through to the default class. -/
def getStatusColor (status : Option String) : String :=
  jsOrDefault ((STATUS_OPTIONS.find? (fun opt => status = some opt.value)).map (·.color))
    neutralStyle

/-! Helper lemmas about jsLookup. -/

theorem jsLookup_go (k : String) (l : FsObj) (acc : Option FsValue) :
    l.foldl (fun acc p => if p.1 = k then some p.2 else acc) acc =
      match jsLookup l k with
      | some v => some v
      | none => acc := by
  induction l generalizing acc with
  | nil => simp [jsLookup]
  | cons p l ih =>
    simp only [jsLookup, List.foldl_cons]
    rw [ih (if p.1 = k then some p.2 else acc), ih (if p.1 = k then some p.2 else none)]
    by_cases hp : p.1 = k <;> cases hl : jsLookup l k <;>
      simp [hp, hl]

theorem jsLookup_cons (k : String) (p : String × FsValue) (l : FsObj) :
    jsLookup (p :: l) k =
      match jsLookup l k with
      | some v => some v
      | none => if p.1 = k then some p.2 else none := by
  simp only [jsLookup, List.foldl_cons]
  rw [jsLookup_go]
  rfl

theorem jsLookup_append (k : String) (a b : FsObj) :
    jsLookup (a ++ b) k =
      match jsLookup b k with
      | some v => some v
      | none => jsLookup a k := by
  simp only [jsLookup, List.foldl_append]
  rw [jsLookup_go]
  rfl

/-! The live collection mirror (JobTracker.jsx:101-111).  A snapshot is the
full document set: a list of (document id, stored field mapping) pairs in
snapshot order. -/

/-- The appliedDate value placed on a mirrored record (JobTracker.jsx:106):
a Firestore Timestamp is converted to its ISO date string via
toDate().toISOString().substring(0, 10); any other stored value is kept
as-is, and a missing field spreads to undefined. -/
def convAppliedDate (data : FsObj) : FsValue :=
  match jsLookup data "appliedDate" with
  | some (FsValue.ts t) => FsValue.str t.toIso
  | some v => v
  | none => FsValue.undef

/-- One mirrored record (JobTracker.jsx:102-107): the object literal writes
the document id first, then spreads the stored fields, then overwrites
appliedDate with the converted value.  Later entries shadow earlier ones
under jsLookup, exactly as in JS. -/
def convertDoc (docId : String) (data : FsObj) : FsObj :=
  ("id", FsValue.str docId) :: data ++ [("appliedDate", convAppliedDate data)]

/-- The time value new Date(record.appliedDate) used by the sort comparator
(JobTracker.jsx:109): a string parses as an ISO date or is an Invalid Date;
any non-string (undefined, or an object) is an Invalid Date, whose time
value is NaN, modelled as none. -/
def dateKey (r : FsObj) : Option Int :=
  match jsLookup r "appliedDate" with
  | some (FsValue.str s) => (jsParseDate s).map JsDate.encode
  | _ => none

/-- The comparator new Date(b.appliedDate) - new Date(a.appliedDate)
(JobTracker.jsx:109) as consumed by Array.prototype.sort: a NaN comparator
result (either date unparsable) is treated as 0 by the ECMAScript
SortCompare operation. -/
def sortCompare (a b : FsObj) : Int :=
  match dateKey a, dateKey b with
  | some x, some y => y - x
  | _, _ => 0

/-- The before-or-tied relation the sort establishes: a may precede b. -/
def dateLe (a b : FsObj) : Bool :=
  sortCompare a b ≤ 0

/-- The records rebuilt from a snapshot, in snapshot order
(JobTracker.jsx:102-107). -/
def mappedDocs (snap : List (String × FsObj)) : List FsObj :=
  snap.map fun p => convertDoc p.1 p.2

/-- The in-memory jobs list produced from one snapshot (JobTracker.jsx:
102-110).  Array.prototype.sort is a stable sort (engines use stable merge
sorts; ECMAScript mandates stability), modelled by the stable top-down
List.mergeSort. -/
def processSnapshot (snap : List (String × FsObj)) : List FsObj :=
  (mappedDocs snap).mergeSort dateLe

/-! The CRUD command layer (JobTracker.jsx:122-179).  Each handler is
modelled as the list of store calls it issues; absent handles are none. -/

/-- A write issued against the document store. -/
inductive StoreCall where
  | add (collectionPath : String) (fields : FsObj)
  | update (documentPath : String) (fields : FsObj)
  | delete (documentPath : String)
deriving DecidableEq

/-- Collection path artifacts/(appId)/users/(userId)/jobApplications built at
JobTracker.jsx:97, 136, 163 and 174. -/
def collectionPath (appId userId : String) : String :=
  "artifacts/" ++ appId ++ "/users/" ++ userId ++ "/jobApplications"

/-- Document path within that collection, as built by doc(db, path, id). -/
def docPath (appId userId id : String) : String :=
  collectionPath appId userId ++ "/" ++ id

/-- The new-application form state (JobTracker.jsx:37-45): all seven fields
are strings bound to form inputs. -/
structure NewJob where
  company : String
  title : String
  status : String
  appliedDate : String
  notes : String
  postingLink : String
  documentsUsed : String
deriving DecidableEq

/-- Initial form state (JobTracker.jsx:37-45): empty texts, status defaulted
to Applied, appliedDate prefilled with the ISO string of the current date. -/
def initialNewJob (today : JsDate) : NewJob :=
  ⟨"", "", "Applied", today.toIso, "", "", ""⟩

/-- The document handed to addDoc (JobTracker.jsx:129-133): the spread of the
form state with appliedDate replaced by Timestamp.fromDate(new Date(...)) and
createdAt set to Timestamp.now().  dt is the parsed form date and now the
calendar date of the call instant (the only aspect of Timestamp.now() the
model observes). -/
def jobToAdd (form : NewJob) (dt : JsDate) (now : JsDate) : FsObj :=
  [("company", FsValue.str form.company),
   ("title", FsValue.str form.title),
   ("status", FsValue.str form.status),
   ("appliedDate", FsValue.ts dt),
   ("notes", FsValue.str form.notes),
   ("postingLink", FsValue.str form.postingLink),
   ("documentsUsed", FsValue.str form.documentsUsed),
   ("createdAt", FsValue.ts now)]

/-- handleAddJob (JobTracker.jsx:122-152).  With db or userId missing it
logs and returns without a call.  Otherwise it builds jobToAdd and issues one
addDoc; if the form date does not parse, Timestamp.fromDate throws a
RangeError on the Invalid Date before addDoc runs, so no call is issued. -/
def handleAddJob (appId : String) (db : Option Unit) (userId : Option String)
    (now : JsDate) (form : NewJob) : List StoreCall :=
  match db, userId with
  | some _, some uid =>
    match jsParseDate form.appliedDate with
    | some dt => [StoreCall.add (collectionPath appId uid) (jobToAdd form dt now)]
    | none => []
  | _, _ => []

/-- Browser constraint validation of the add form (JobTracker.jsx:197-248):
handleAddJob is only reachable as the onSubmit handler of the form, and the
company, title and date inputs all carry the required attribute, so an empty
company or title blocks submission.  The value of the date input is sanitised by
the browser to either a valid YYYY-MM-DD string or the empty string, so the
required date input is satisfied exactly when the value parses. -/
def formSubmits (form : NewJob) : Bool :=
  form.company ≠ "" && form.title ≠ "" && (jsParseDate form.appliedDate).isSome

/-- The Add operation as invocable by the user: form submission runs
handleAddJob only when constraint validation passes. -/
def addViaForm (appId : String) (db : Option Unit) (userId : Option String)
    (now : JsDate) (form : NewJob) : List StoreCall :=
  if formSubmits form then handleAddJob appId db userId now form else []

/-- handleDeleteJob (JobTracker.jsx:154-168): returns without a call when db
or userId is missing, then asks window.confirm and returns when declined;
only then is one deleteDoc issued. -/
def handleDeleteJob (appId : String) (db : Option Unit) (userId : Option String)
    (confirmed : Bool) (id : String) : List StoreCall :=
  match db, userId with
  | some _, some uid =>
    if confirmed then [StoreCall.delete (docPath appId uid id)] else []
  | _, _ => []

/-- handleUpdateStatus (JobTracker.jsx:170-179): returns silently when db or
userId is missing or newStatus is falsy (the empty string); otherwise issues
one updateDoc whose field set is exactly the status field. -/
def handleUpdateStatus (appId : String) (db : Option Unit) (userId : Option String)
    (jobId newStatus : String) : List StoreCall :=
  match db, userId with
  | some _, some uid =>
    if newStatus = "" then []
    else [StoreCall.update (docPath appId uid jobId) [("status", FsValue.str newStatus)]]
  | _, _ => []

/-- Effect of a Firestore partial update on a stored document: updateDoc
merges the given top-level fields into the document, leaving all other
fields untouched.  With last-wins lookup this is list append. -/
def applyUpdate (docFields updFields : FsObj) : FsObj :=
  docFields ++ updFields

/-! Session bootstrap (JobTracker.jsx:48-89). -/

/-- Outcome of the init effect. -/
structure InitResult where
  db : Option Unit
  auth : Option Unit
  configErrorReported : Bool
  signInAttempted : Bool
  authListenerRegistered : Bool
deriving DecidableEq

/-- The init effect (JobTracker.jsx:48-89): with no firebaseConfig it
reports the configuration error and returns before creating any handle,
attempting any sign-in, or registering the auth listener; otherwise it
creates both handles, starts a sign-in (with the supplied token when
present, else anonymously) and registers onAuthStateChanged. -/
def initApp (config : Option Unit) (token : Option String) : InitResult :=
  match config with
  | none => ⟨none, none, true, false, false⟩
  | some _ =>
    match token with
    | some _ => ⟨some (), some (), false, true, true⟩
    | none => ⟨some (), some (), false, true, true⟩

/-- The onAuthStateChanged callback (JobTracker.jsx:78-86): the userId it
stores.  A positive event stores the reported uid; an event reporting no
user stores a freshly generated crypto.randomUUID() value. -/
def authStateUpdate (user : Option String) (freshUuid : String) : String :=
  match user with
  | some uid => uid
  | none => freshUuid

/-- The subscription effect (JobTracker.jsx:92-98): with db and userId both
set it opens exactly one onSnapshot subscription on the per-user collection
path, returned here as that path; otherwise it returns without subscribing. -/
def subscribeEffect (db : Option Unit) (userId : Option String) (appId : String) :
    Option String :=
  match db, userId with
  | some _, some uid => some (collectionPath appId uid)
  | _, _ => none

/-! Claim theorems. -/

/-- C10: the id of the mirrored record equals the document id of the store whenever the
stored field mapping contains no key named id; because the stored fields are
spread after the document id during rebuild, a stored id field shadows the
document id in the mirrored record. -/
theorem c10_doc_id_shadowing (docId : String) (data : FsObj) :
    (jsLookup data "id" = none →
      jsLookup (convertDoc docId data) "id" = some (FsValue.str docId))
    ∧ ∀ v, jsLookup data "id" = some v →
      jsLookup (convertDoc docId data) "id" = some v := by
  have hbase : jsLookup (convertDoc docId data) "id" =
      match jsLookup data "id" with
      | some v => some v
      | none => some (FsValue.str docId) := by
    unfold convertDoc
    rw [jsLookup_append]
    cases hl : jsLookup data "id" <;> simp [jsLookup_cons, jsLookup, hl] <;>
      rw [jsLookup_go] <;> simp [hl]
  constructor
  · intro h; rw [hbase, h]
  · intro v h; rw [hbase, h]

/-- Witness for C10: with no stored id field the id of the record is the document
id; a stored id field shadows it. -/
theorem c10_doc_id_shadowing_witness :
    jsLookup (convertDoc "doc7" [("company", FsValue.str "Acme")]) "id"
        = some (FsValue.str "doc7")
    ∧ jsLookup (convertDoc "doc7" [("id", FsValue.str "sneaky")]) "id"
        = some (FsValue.str "sneaky") :=
  ⟨(c10_doc_id_shadowing "doc7" [("company", FsValue.str "Acme")]).1 (by decide),
   (c10_doc_id_shadowing "doc7" [("id", FsValue.str "sneaky")]).2
     (FsValue.str "sneaky") (by decide)⟩

/-- C5: the status-to-style helper is total and pure: every input (including
null/undefined and values outside the enumeration) yields one of the valid
display classes, and every unrecognized value yields the neutral class. -/
theorem c5_getStatusColor_total (status : Option String) :
    getStatusColor status ∈ validStyles
    ∧ ((∀ opt ∈ STATUS_OPTIONS, status ≠ some opt.value) →
        getStatusColor status = neutralStyle) := by
  constructor
  · unfold getStatusColor
    cases hf : STATUS_OPTIONS.find? (fun opt => status = some opt.value) with
    | none => simp [jsOrDefault, validStyles]
    | some opt =>
      have hmem := List.mem_of_find?_eq_some hf
      unfold jsOrDefault validStyles
      by_cases hc : opt.color = "" <;> simp [hc]
      left
      exact ⟨opt, hmem, rfl⟩
  · intro h
    have hf : STATUS_OPTIONS.find? (fun opt => status = some opt.value) = none := by
      apply List.find?_eq_none.mpr
      intro opt hm
      simpa using h opt hm
    unfold getStatusColor
    rw [hf]
    rfl

/-- Witness for C5: an unrecognized status yields the neutral class. -/
theorem c5_getStatusColor_total_witness :
    getStatusColor (some "Bogus") = neutralStyle :=
  (c5_getStatusColor_total (some "Bogus")).2 (by decide)

/-- C2: an Add invocation with empty company, empty title, or an appliedDate
that does not parse as a calendar date issues no store write.  The guard is
the constraint validation the browser applies to of the three required form inputs, which
blocks the submit that is the only way handleAddJob runs. -/
theorem c2_add_validation (appId : String) (db : Option Unit) (userId : Option String)
    (now : JsDate) (form : NewJob)
    (h : form.company = "" ∨ form.title = "" ∨ jsParseDate form.appliedDate = none) :
    addViaForm appId db userId now form = [] := by
  have hs : formSubmits form = false := by
    unfold formSubmits
    rcases h with h | h | h <;> simp [h]
  simp [addViaForm, hs]

/-- Witness for C2: an empty company blocks the write. -/
theorem c2_add_validation_witness :
    addViaForm "app" (some ()) (some "user1") ⟨2024, 5, 1⟩
      ⟨"", "Engineer", "Applied", "2024-05-01", "", "", ""⟩ = [] :=
  c2_add_validation "app" (some ()) (some "user1") ⟨2024, 5, 1⟩
    ⟨"", "Engineer", "Applied", "2024-05-01", "", "", ""⟩ (Or.inl rfl)

/-- C3 as stated is false at a concrete input: a non-empty status outside the
fixed enumeration passes the falsiness guard in handleUpdateStatus, so a
store update is issued for it. -/
theorem c3_counterexample :
    "Bogus" ∉ statusValues
    ∧ handleUpdateStatus "app" (some ()) (some "user1") "x" "Bogus" ≠ [] := by
  constructor
  · decide
  · simp [handleUpdateStatus]

/-- C3 amended: UpdateStatus is a silent no-op exactly when the store handle
or identity is unavailable or newStatus is empty; membership in the fixed
enumeration is not checked by the handler (only the calling select, whose
options are exactly the enumeration, keeps non-members out). -/
theorem c3_amended (appId : String) (db : Option Unit) (userId : Option String)
    (jobId newStatus : String) :
    handleUpdateStatus appId db userId jobId newStatus = [] ↔
      db = none ∨ userId = none ∨ newStatus = "" := by
  cases db <;> cases userId <;> by_cases h : newStatus = "" <;>
    simp [handleUpdateStatus, h]

/-- C4: the delete handler issues its store call exactly when the store
handle and identity are available and the confirmation is
affirmative; a missing handle or identity, or a declined confirmation,
issues no store call. -/
theorem c4_delete_confirmation (appId : String) (db : Option Unit)
    (userId : Option String) (confirmed : Bool) (id : String) :
    handleDeleteJob appId db userId confirmed id = [] ↔
      db = none ∨ userId = none ∨ confirmed = false := by
  cases db <;> cases userId <;> cases confirmed <;> simp [handleDeleteJob]

/-- C6: with no store configuration at startup, init reports the
configuration error and creates no handles, attempts no sign-in and
registers no listener; consequently no subscription is opened and no CRUD
handler can issue a store call. -/
theorem c6_missing_config (token : Option String) (appId : String)
    (userId : Option String) (now : JsDate) (form : NewJob)
    (jobId newStatus : String) (confirmed : Bool) (id : String) :
    (initApp none token).configErrorReported = true
    ∧ (initApp none token).db = none
    ∧ (initApp none token).signInAttempted = false
    ∧ (initApp none token).authListenerRegistered = false
    ∧ subscribeEffect (initApp none token).db userId appId = none
    ∧ handleAddJob appId (initApp none token).db userId now form = []
    ∧ handleUpdateStatus appId (initApp none token).db userId jobId newStatus = []
    ∧ handleDeleteJob appId (initApp none token).db userId confirmed id = [] := by
  cases userId <;>
    simp [initApp, subscribeEffect, handleAddJob, handleUpdateStatus, handleDeleteJob]

/-- C7 as stated is false: when the identity provider reports no user the
listener does not remain in a no-identity holding state; it stores a freshly
generated random identifier, and with a store handle present the
subscription opens under that identifier although no positive identity event
resolved a user. -/
theorem c7_counterexample :
    authStateUpdate none "4f9d-rand-uuid" = "4f9d-rand-uuid"
    ∧ subscribeEffect (some ()) (some (authStateUpdate none "4f9d-rand-uuid")) "app"
        = some (collectionPath "app" "4f9d-rand-uuid") :=
  ⟨rfl, rfl⟩

/-- C7 amended: while userId is unset no data call is attempted (the
subscription effect and every CRUD handler bail out), so a sign-in failure
alone leaves the system idle; but the auth listener resolves every identity
event to an identifier - an event reporting no user is answered with a
locally generated random uuid instead of a holding state, and the
subscription proceeds under it. -/
theorem c7_amended (db : Option Unit) (appId : String) (now : JsDate)
    (form : NewJob) (jobId newStatus : String) (confirmed : Bool) (id : String)
    (user : Option String) (freshUuid : String) :
    subscribeEffect db none appId = none
    ∧ handleAddJob appId db none now form = []
    ∧ handleUpdateStatus appId db none jobId newStatus = []
    ∧ handleDeleteJob appId db none confirmed id = []
    ∧ authStateUpdate user freshUuid = user.getD freshUuid
    ∧ (subscribeEffect (some ()) (some (authStateUpdate none freshUuid)) appId).isSome
        = true := by
  cases db <;> cases user <;>
    simp [subscribeEffect, handleAddJob, handleUpdateStatus, handleDeleteJob,
      authStateUpdate]

/-- C8: a successful Add with a resolved identity issues exactly one add call
on artifacts/(appId)/users/(userId)/jobApplications; the written record
carries createdAt assigned at call time and the status from the form, which the
initial form state defaults to Applied. -/
theorem c8_add_call_shape (appId uid : String) (now : JsDate) (form : NewJob)
    (dt : JsDate) (hdt : jsParseDate form.appliedDate = some dt) (today : JsDate) :
    handleAddJob appId (some ()) (some uid) now form =
        [StoreCall.add (collectionPath appId uid) (jobToAdd form dt now)]
    ∧ jsLookup (jobToAdd form dt now) "createdAt" = some (FsValue.ts now)
    ∧ jsLookup (jobToAdd form dt now) "status" = some (FsValue.str form.status)
    ∧ (initialNewJob today).status = "Applied" := by
  refine ⟨by simp [handleAddJob, hdt], rfl, rfl, rfl⟩

/-- Witness for C8, the Add scenario of the spec: Acme/Engineer on 2024-05-01. -/
theorem c8_add_call_shape_witness :
    handleAddJob "app" (some ()) (some "user1") ⟨2024, 5, 2⟩
        ⟨"Acme", "Engineer", "Applied", "2024-05-01", "", "", ""⟩ =
      [StoreCall.add (collectionPath "app" "user1")
        (jobToAdd ⟨"Acme", "Engineer", "Applied", "2024-05-01", "", "", ""⟩
          ⟨2024, 5, 1⟩ ⟨2024, 5, 2⟩)] :=
  (c8_add_call_shape "app" "user1" ⟨2024, 5, 2⟩
    ⟨"Acme", "Engineer", "Applied", "2024-05-01", "", "", ""⟩
    ⟨2024, 5, 1⟩ (by decide) ⟨2024, 5, 2⟩).1

/-- C9: every store write issued by UpdateStatus is a partial update on
.../jobApplications/(id) whose field set is exactly the status field, and
merging that partial update into any stored document changes the status
field and nothing else. -/
theorem c9_update_frame (appId uid jobId newStatus : String)
    (hs : newStatus ≠ "") (docFields : FsObj) (k : String) :
    handleUpdateStatus appId (some ()) (some uid) jobId newStatus =
        [StoreCall.update (docPath appId uid jobId) [("status", FsValue.str newStatus)]]
    ∧ jsLookup (applyUpdate docFields [("status", FsValue.str newStatus)]) "status"
        = some (FsValue.str newStatus)
    ∧ (k ≠ "status" →
        jsLookup (applyUpdate docFields [("status", FsValue.str newStatus)]) k
          = jsLookup docFields k) := by
  refine ⟨by simp [handleUpdateStatus, hs], ?_, ?_⟩
  · unfold applyUpdate
    rw [jsLookup_append]
    simp [jsLookup]
  · intro hk
    have hk2 : ("status" : String) ≠ k := fun h => hk h.symm
    unfold applyUpdate
    rw [jsLookup_append]
    simp [jsLookup, hk2]

/-- Witness for C9, the UpdateStatus scenario of the spec: id x, status Offer,
and the frame over an unrelated company field. -/
theorem c9_update_frame_witness :
    handleUpdateStatus "app" (some ()) (some "user1") "x" "Offer" =
        [StoreCall.update (docPath "app" "user1" "x") [("status", FsValue.str "Offer")]]
    ∧ jsLookup (applyUpdate [("company", FsValue.str "Acme")]
        [("status", FsValue.str "Offer")]) "company"
        = jsLookup [("company", FsValue.str "Acme")] "company" :=
  ⟨(c9_update_frame "app" "user1" "x" "Offer" (by decide) [] "company").1,
   (c9_update_frame "app" "user1" "x" "Offer" (by decide)
     [("company", FsValue.str "Acme")] "company").2.2 (by decide)⟩

/-! Claim C1.  The JS comparator treats an unparsable date as tied with
everything, so it is not transitive, and the library lemmas about mergeSort
(which assume a globally transitive comparator) do not apply directly.  The
congruence lemmas below let us swap in a transitive comparator that agrees
with dateLe on every record of a snapshot whose dates all parse. -/

theorem merge_congr {α : Type} (le₁ le₂ : α → α → Bool) :
    ∀ xs ys : List α, (∀ a ∈ xs, ∀ b ∈ ys, le₁ a b = le₂ a b) →
      List.merge xs ys le₁ = List.merge xs ys le₂ := by
  intro xs
  induction xs with
  | nil => intro ys h; simp
  | cons x xs ihx =>
    intro ys
    induction ys with
    | nil => intro h; simp
    | cons y ys ihy =>
      intro h
      have hxy : le₁ x y = le₂ x y := h x (by simp) y (by simp)
      by_cases hc : le₁ x y = true
      · rw [List.cons_merge_cons_pos le₁ xs ys hc,
          List.cons_merge_cons_pos le₂ xs ys (hxy ▸ hc),
          ihx (y :: ys) (fun a ha b hb => h a (List.mem_cons_of_mem x ha) b hb)]
      · rw [List.cons_merge_cons_neg le₁ xs ys hc,
          List.cons_merge_cons_neg le₂ xs ys (hxy ▸ hc),
          ihy (fun a ha b hb => h a ha b (List.mem_cons_of_mem y hb))]

theorem mergeSort_congr {α : Type} (le₁ le₂ : α → α → Bool) :
    ∀ l : List α, (∀ a ∈ l, ∀ b ∈ l, le₁ a b = le₂ a b) →
      List.mergeSort l le₁ = List.mergeSort l le₂
  | [], _ => by simp
  | [a], _ => by simp
  | a :: b :: xs, h => by
    have h1 : (List.splitInTwo ⟨a :: b :: xs, rfl⟩).1.1.length < xs.length + 1 + 1 := by
      simp [List.splitInTwo_fst]
      omega
    have h2 : (List.splitInTwo ⟨a :: b :: xs, rfl⟩).2.1.length < xs.length + 1 + 1 := by
      simp [List.splitInTwo_snd]
      omega
    have hm1 : ∀ x ∈ (List.splitInTwo ⟨a :: b :: xs, rfl⟩).1.1, x ∈ a :: b :: xs := by
      intro x hx
      rw [congrArg Subtype.val (List.splitInTwo_fst ⟨a :: b :: xs, rfl⟩)] at hx
      exact (List.take_sublist _ _).mem hx
    have hm2 : ∀ x ∈ (List.splitInTwo ⟨a :: b :: xs, rfl⟩).2.1, x ∈ a :: b :: xs := by
      intro x hx
      rw [congrArg Subtype.val (List.splitInTwo_snd ⟨a :: b :: xs, rfl⟩)] at hx
      exact (List.drop_sublist _ _).mem hx
    rw [List.mergeSort, List.mergeSort]
    rw [mergeSort_congr le₁ le₂ (List.splitInTwo ⟨a :: b :: xs, rfl⟩).1.1
        (fun p hp q hq => h p (hm1 p hp) q (hm1 q hq)),
      mergeSort_congr le₁ le₂ (List.splitInTwo ⟨a :: b :: xs, rfl⟩).2.1
        (fun p hp q hq => h p (hm2 p hp) q (hm2 q hq))]
    exact merge_congr le₁ le₂ _ _ (fun p hp q hq =>
      h p (hm1 p (List.mem_mergeSort.mp hp)) q (hm2 q (List.mem_mergeSort.mp hq)))
termination_by l => l.length

/-- Proof-side comparator: descending order of the (defaulted) date keys.
It agrees with dateLe on records whose dates parse, and unlike dateLe it is
transitive and total on all records. -/
def keyLe (a b : FsObj) : Bool :=
  decide ((dateKey b).getD 0 ≤ (dateKey a).getD 0)

theorem keyLe_trans : ∀ a b c : FsObj, keyLe a b → keyLe b c → keyLe a c := by
  intro a b c
  simp only [keyLe, decide_eq_true_eq]
  omega

theorem keyLe_total : ∀ a b : FsObj, keyLe a b || keyLe b a := by
  intro a b
  simp only [keyLe, Bool.or_eq_true, decide_eq_true_eq]
  omega

/-- Modelled from the spec claim C1: after a snapshot the in-memory list is
a permutation of the rebuilt records, any two records with parsable dates
appear in descending date order, and each tie class of the comparator (a
shared parsable date, or the unparsable class) keeps its snapshot order. -/
def c1SpecHolds (snap : List (String × FsObj)) : Prop :=
  List.Perm (processSnapshot snap) (mappedDocs snap)
  ∧ (processSnapshot snap).Pairwise
      (fun a b => (dateKey a).isSome → (dateKey b).isSome →
        (dateKey b).getD 0 ≤ (dateKey a).getD 0)
  ∧ ∀ v : Option Int,
      (processSnapshot snap).filter (fun r => dateKey r = v)
        = (mappedDocs snap).filter (fun r => dateKey r = v)

/-- A snapshot mixing parsable and unparsable dates: Jan 10, two unparsable
strings, then Mar 5. -/
def snapBad : List (String × FsObj) :=
  [("a", [("appliedDate", FsValue.str "2024-01-10")]),
   ("b", [("appliedDate", FsValue.str "not-a-date")]),
   ("c", [("appliedDate", FsValue.str "nope")]),
   ("d", [("appliedDate", FsValue.str "2024-03-05")])]

section Counterexamples

attribute [local semireducible] List.mergeSort List.merge

/-- C1 as stated is false: on snapBad the stable sort compares every
adjacent pair as a tie (the two middle dates are unparsable), leaves the
list in snapshot order, and thus keeps the 2024-01-10 record ahead of the
2024-03-05 record - the result is not sorted by appliedDate descending. -/
theorem c1_counterexample : ¬ c1SpecHolds snapBad := by
  intro h
  have hs := h.2.1
  revert hs
  decide

end Counterexamples

/-- C1 amended: for a snapshot all of whose rebuilt records carry parsable
dates, the in-memory list is the document set of the snapshot sorted by
appliedDate descending, and records with equal dates keep their snapshot
order.  (With unparsable dates present the comparator treats them as tied
with everything, and parsable records separated by them need not end up in
descending order, as c1_counterexample shows.) -/
theorem c1_amended (snap : List (String × FsObj))
    (h : ∀ r ∈ mappedDocs snap, (dateKey r).isSome = true) :
    List.Perm (processSnapshot snap) (mappedDocs snap)
    ∧ (processSnapshot snap).Pairwise
        (fun a b => (dateKey b).getD 0 ≤ (dateKey a).getD 0)
    ∧ ∀ v : Option Int,
        (processSnapshot snap).filter (fun r => dateKey r = v)
          = (mappedDocs snap).filter (fun r => dateKey r = v) := by
  have hagree : ∀ a ∈ mappedDocs snap, ∀ b ∈ mappedDocs snap,
      dateLe a b = keyLe a b := by
    intro a ha b hb
    obtain ⟨ka, hka⟩ := Option.isSome_iff_exists.mp (h a ha)
    obtain ⟨kb, hkb⟩ := Option.isSome_iff_exists.mp (h b hb)
    simp only [dateLe, keyLe, sortCompare, hka, hkb, Option.getD_some]
    rw [decide_eq_decide]
    omega
  have hcongr : processSnapshot snap = (mappedDocs snap).mergeSort keyLe := by
    unfold processSnapshot
    exact mergeSort_congr dateLe keyLe (mappedDocs snap) hagree
  refine ⟨List.mergeSort_perm _ _, ?_, ?_⟩
  · rw [hcongr]
    have hp := List.sorted_mergeSort keyLe_trans keyLe_total (mappedDocs snap)
    exact hp.imp (fun hab => by simpa [keyLe] using hab)
  · intro v
    rw [hcongr]
    have hsubl : (mappedDocs snap).filter (fun r => dateKey r = v) <+
        (mappedDocs snap).mergeSort keyLe := by
      apply List.sublist_mergeSort keyLe_trans keyLe_total
      · apply List.pairwise_of_forall_mem_list
        intro a ha b hb
        have hpa := (List.mem_filter.mp ha).2
        have hpb := (List.mem_filter.mp hb).2
        simp only [decide_eq_true_eq] at hpa hpb
        simp [keyLe, hpa, hpb]
      · exact List.filter_sublist _
    have hperm : List.Perm
        (((mappedDocs snap).mergeSort keyLe).filter (fun r => dateKey r = v))
        ((mappedDocs snap).filter (fun r => dateKey r = v)) :=
      (List.mergeSort_perm _ _).filter _
    have hself : ((mappedDocs snap).filter (fun r => dateKey r = v)).filter
        (fun r => dateKey r = v) = (mappedDocs snap).filter (fun r => dateKey r = v) :=
      List.filter_eq_self.mpr (fun a ha => (List.mem_filter.mp ha).2)
    have h2 := hsubl.filter (fun r => decide (dateKey r = v))
    rw [hself] at h2
    exact (h2.eq_of_length hperm.length_eq.symm).symm

section Witnesses

attribute [local semireducible] List.mergeSort List.merge

/-- Witness for C1 amended, the spec scenario: documents dated 2024-01-10
and 2024-03-05 come out most-recent-first, as a permutation of the rebuilt
records. -/
theorem c1_amended_witness :
    processSnapshot
        [("doc1", [("appliedDate", FsValue.str "2024-01-10")]),
         ("doc2", [("appliedDate", FsValue.str "2024-03-05")])]
      = [convertDoc "doc2" [("appliedDate", FsValue.str "2024-03-05")],
         convertDoc "doc1" [("appliedDate", FsValue.str "2024-01-10")]]
    ∧ List.Perm
        (processSnapshot
          [("doc1", [("appliedDate", FsValue.str "2024-01-10")]),
           ("doc2", [("appliedDate", FsValue.str "2024-03-05")])])
        (mappedDocs
          [("doc1", [("appliedDate", FsValue.str "2024-01-10")]),
           ("doc2", [("appliedDate", FsValue.str "2024-03-05")])]) :=
  ⟨by decide,
   (c1_amended
     [("doc1", [("appliedDate", FsValue.str "2024-01-10")]),
      ("doc2", [("appliedDate", FsValue.str "2024-03-05")])] (by decide)).1⟩

end Witnesses
